import Mathlib

/-!
Shallow embedding of the live-crime-report composer
(component `LiveCrimeReport`, file `src/unnamed/part_000`).

The component holds its workflow state in React state hooks; we embed that
state as one record `ComponentState` and each user-triggered handler as a
state transformer.  Network calls (`axios.post`) are modelled by an oracle
record `Network`; the submission mutation returns both its result and the
ordered list of network calls it performed, so temporal claims about the
two-phase upload/create sequence become statements about that trace.
Binary blobs are byte lists; floating-point coordinates are only ever
passed through unchanged, so they are modelled as integers.
-/

namespace LiveCrimeReport

/-- The `crimeType` enum of `crimeReportSchema`. -/
inductive CrimeType where
  | ROBBERY
  | FRAUD
  | CYBERCRIME
  | SCAM
  | IMPERSONATION
  | OTHER
deriving DecidableEq

/-- String rendering of a crime type, as interpolated into the subject line. -/
def crimeTypeToString : CrimeType → String
  | CrimeType.ROBBERY => "ROBBERY"
  | CrimeType.FRAUD => "FRAUD"
  | CrimeType.CYBERCRIME => "CYBERCRIME"
  | CrimeType.SCAM => "SCAM"
  | CrimeType.IMPERSONATION => "IMPERSONATION"
  | CrimeType.OTHER => "OTHER"

/-- The `Location` interface: latitude, longitude, reverse-geocoded address. -/
structure Location where
  latitude : Int
  longitude : Int
  address : String
deriving DecidableEq

/-- A browser `File`: display name, MIME type, binary payload (bytes). -/
structure File where
  name : String
  mimeType : String
  payload : List Nat
deriving DecidableEq

/-- The component state held in the `useState` hooks of `LiveCrimeReport`. -/
structure ComponentState where
  location : Option Location
  isLoadingLocation : Bool
  evidenceFiles : List File
  isRecording : Bool
  mediaRecorder : Option Unit
  audioChunks : List (List Nat)
deriving DecidableEq

/-- Initial values of the `useState` hooks. -/
def initialState : ComponentState :=
  { location := none
    isLoadingLocation := false
    evidenceFiles := []
    isRecording := false
    mediaRecorder := none
    audioChunks := [] }

/-- `handleFileChange`: if `e.target.files` is non-null, append the selected
files to the evidence collection in selection order. -/
def handleFileChange (files : Option (List File)) (s : ComponentState) :
    ComponentState :=
  match files with
  | none => s
  | some fs => { s with evidenceFiles := s.evidenceFiles ++ fs }

/-- The positional filter `prev.filter((_, i) => i !== index)` of `removeFile`,
written with an explicit running index `i` (a JS array index, compared to the
possibly-negative argument as an integer). -/
def filterNeIdx (index : Int) : Nat → List File → List File
  | _, [] => []
  | i, f :: fs =>
      if (i : Int) = index then filterNeIdx index (i + 1) fs
      else f :: filterNeIdx index (i + 1) fs

/-- `removeFile`: drop the evidence item at the given position, if any. -/
def removeFile (index : Int) (s : ComponentState) : ComponentState :=
  { s with evidenceFiles := filterNeIdx index 0 s.evidenceFiles }

/-- The `ondataavailable` callback of the recorder: append the chunk to the
buffer when `e.data.size > 0`, otherwise ignore it. -/
def recorderOnData (data : List Nat) (s : ComponentState) : ComponentState :=
  if 0 < data.length then { s with audioChunks := s.audioChunks ++ [data] }
  else s

/-- `startRecording`, success path: store the recorder and mark recording. -/
def startRecording (s : ComponentState) : ComponentState :=
  { s with mediaRecorder := some (), isRecording := true }

/-- `new File([new Blob(audioChunks)], 'audio-evidence.webm', ...)`:
the blob concatenates the buffered chunks in order. -/
def audioEvidenceFile (chunks : List (List Nat)) : File :=
  { name := "audio-evidence.webm"
    mimeType := "audio/webm"
    payload := chunks.flatten }

/-- `stopRecording`: guarded on a recorder existing; stops it, clears the
recording flag, appends the concatenated audio as one evidence file, and
empties the chunk buffer. -/
def stopRecording (s : ComponentState) : ComponentState :=
  match s.mediaRecorder with
  | none => s
  | some _ =>
      { s with
        isRecording := false
        evidenceFiles := s.evidenceFiles ++ [audioEvidenceFile s.audioChunks]
        audioChunks := [] }

/-- Delivery of a sequence of audio chunks, in arrival order. -/
def feedChunks : List (List Nat) → ComponentState → ComponentState
  | [], s => s
  | c :: cs, s => feedChunks cs (recorderOnData c s)

/-- The validated form fields (`CrimeReportFormData`). -/
structure CrimeReportFormData where
  crimeType : CrimeType
  description : String
  inProgress : Bool
  emergencyContacts : Option (List String)
deriving DecidableEq

/-- The zod refinement on the form: description at least 20 characters
(the enum and boolean fields are already enforced by their types). -/
def validFormData (d : CrimeReportFormData) : Prop :=
  20 ≤ d.description.length

instance (d : CrimeReportFormData) : Decidable (validFormData d) := by
  unfold validFormData
  infer_instance

/-- The `crimeDetails` object: the spread of the form data plus the resolved
location and the uploaded evidence URLs. -/
structure CrimeDetails where
  crimeType : CrimeType
  description : String
  inProgress : Bool
  emergencyContacts : Option (List String)
  location : Location
  evidenceUrls : List String
deriving DecidableEq

/-- The `reportData` payload posted to `/api/support/tickets`. -/
structure ReportData where
  type : String
  subject : String
  description : String
  priority : String
  crimeDetails : CrimeDetails
deriving DecidableEq

/-- Construction of `reportData` in `submitCrimeReport`. -/
def mkReportData (data : CrimeReportFormData) (loc : Location)
    (urls : List String) : ReportData :=
  { type := "LIVE_CRIME"
    subject := "Live Crime Report: " ++ crimeTypeToString data.crimeType
    description := data.description
    priority := "HIGH"
    crimeDetails :=
      { crimeType := data.crimeType
        description := data.description
        inProgress := data.inProgress
        emergencyContacts := data.emergencyContacts
        location := loc
        evidenceUrls := urls } }

/-- One outbound network call made by the submission flow. -/
inductive NetCall where
  | uploadEvidence (files : List File)
  | createTicket (report : ReportData)
deriving DecidableEq

/-- The backend, as an oracle: the evidence-upload endpoint returns the list
of reference URLs (`response.data.urls`), the ticket-creation endpoint
returns the created ticket (`response.data`, abstracted to a string). -/
structure Network where
  upload : List File → Except String (List String)
  create : ReportData → Except String String

instance {α β : Type} [DecidableEq α] [DecidableEq β] :
    DecidableEq (Except α β) := fun x y =>
  match x, y with
  | Except.ok a, Except.ok b =>
      if h : a = b then Decidable.isTrue (congrArg Except.ok h)
      else Decidable.isFalse (fun hc => h (Except.ok.inj hc))
  | Except.error a, Except.error b =>
      if h : a = b then Decidable.isTrue (congrArg Except.error h)
      else Decidable.isFalse (fun hc => h (Except.error.inj hc))
  | Except.ok _, Except.error _ => Decidable.isFalse (fun hc => Except.noConfusion hc)
  | Except.error _, Except.ok _ => Decidable.isFalse (fun hc => Except.noConfusion hc)

/-- Result of one invocation of the submission mutation function, together
with the ordered trace of network calls it performed. -/
structure SubmitRun where
  result : Except String String
  trace : List NetCall
deriving DecidableEq

/-- The async mutation function of `submitCrimeReport`: requires a resolved
location (else throws `Error('Location is required')`); uploads the evidence
first when any is selected, awaiting the URLs; then posts the report payload.
A failure at either await propagates and ends the run. -/
def submitCrimeReport (net : Network) (s : ComponentState)
    (data : CrimeReportFormData) : SubmitRun :=
  match s.location with
  | none => { result := Except.error "Location is required", trace := [] }
  | some loc =>
      if 0 < s.evidenceFiles.length then
        match net.upload s.evidenceFiles with
        | Except.error e =>
            { result := Except.error e
              trace := [NetCall.uploadEvidence s.evidenceFiles] }
        | Except.ok urls =>
            let rd := mkReportData data loc urls
            match net.create rd with
            | Except.error e =>
                { result := Except.error e
                  trace := [NetCall.uploadEvidence s.evidenceFiles,
                            NetCall.createTicket rd] }
            | Except.ok resp =>
                { result := Except.ok resp
                  trace := [NetCall.uploadEvidence s.evidenceFiles,
                            NetCall.createTicket rd] }
      else
        let rd := mkReportData data loc []
        match net.create rd with
        | Except.error e =>
            { result := Except.error e, trace := [NetCall.createTicket rd] }
        | Except.ok resp =>
            { result := Except.ok resp, trace := [NetCall.createTicket rd] }

/-- What the component does with the mutation result: the `onSuccess` handler
shows a success toast and calls the `onSubmit` callback; the `onError` handler
shows an error toast.  Neither handler touches the component state. -/
structure MutationOutcome where
  state : ComponentState
  toasts : List String
  onSubmitCalled : Bool
deriving DecidableEq

/-- The `onSuccess` / `onError` option handlers of the mutation. -/
def handleMutationResult (s : ComponentState) (r : Except String String) :
    MutationOutcome :=
  match r with
  | Except.ok _ =>
      { state := s
        toasts := ["Crime report submitted successfully"]
        onSubmitCalled := true }
  | Except.error _ =>
      { state := s
        toasts := ["Failed to submit crime report"]
        onSubmitCalled := false }

/-- A full `submitCrimeReport.mutate(data)` call: run the mutation function,
then the appropriate handler. -/
def submitFlow (net : Network) (s : ComponentState)
    (data : CrimeReportFormData) : MutationOutcome × List NetCall :=
  let run := submitCrimeReport net s data
  (handleMutationResult s run.result, run.trace)

/-- One user action on the evidence collection. -/
inductive EvidenceOp where
  | add (files : List File)
  | remove (index : Int)

/-- Apply a sequence of evidence actions to the component state. -/
def applyOps : List EvidenceOp → ComponentState → ComponentState
  | [], s => s
  | EvidenceOp.add fs :: rest, s => applyOps rest (handleFileChange (some fs) s)
  | EvidenceOp.remove i :: rest, s => applyOps rest (removeFile i s)

/-- All files added by a sequence of actions, in addition order. -/
def addedFiles : List EvidenceOp → List File
  | [] => []
  | EvidenceOp.add fs :: rest => fs ++ addedFiles rest
  | EvidenceOp.remove _ :: rest => addedFiles rest

/-- Number of removals that hit an in-range index, given the length of the
collection when the sequence starts. -/
def inRangeRemovals : List EvidenceOp → Nat → Nat
  | [], _ => 0
  | EvidenceOp.add fs :: rest, n => inRangeRemovals rest (n + fs.length)
  | EvidenceOp.remove i :: rest, n =>
      if 0 ≤ i ∧ i < (n : Int) then 1 + inRangeRemovals rest (n - 1)
      else inRangeRemovals rest n

/-! Concrete example values used by witnesses and counterexamples. -/

/-- An attached evidence file, as in the end-to-end scenario of the spec. -/
def fEx : File := { name := "receipt.jpg", mimeType := "image/jpeg", payload := [1, 2, 3] }

/-- A second attached evidence file. -/
def fEx2 : File := { name := "photo.png", mimeType := "image/png", payload := [4, 5] }

/-- A resolved location. -/
def locEx : Location := { latitude := 6, longitude := 3, address := "Lagos, Nigeria" }

/-- A valid form-field combination (description has at least 20 characters). -/
def dataEx : CrimeReportFormData :=
  { crimeType := CrimeType.FRAUD
    description := "Someone attempted to withdraw funds from my account"
    inProgress := true
    emergencyContacts := none }

/-- A state with a resolved location and one selected evidence file. -/
def sEx : ComponentState :=
  { initialState with location := some locEx, evidenceFiles := [fEx] }

/-- A state with two selected evidence files. -/
def s2Ex : ComponentState :=
  { initialState with evidenceFiles := [fEx, fEx2] }

/-- A backend on which both endpoints succeed. -/
def netOk : Network :=
  { upload := fun _ => Except.ok ["https://cdn.example/evidence-1"]
    create := fun _ => Except.ok "TICKET1" }

/-- A backend on which the evidence upload fails. -/
def netFail : Network :=
  { upload := fun _ => Except.error "upload failed"
    create := fun _ => Except.ok "TICKET1" }

/-! Helper lemmas about chunk delivery. -/

/-- Chunk delivery does not touch the recorder handle. -/
lemma feedChunks_mediaRecorder (cs : List (List Nat)) :
    ∀ s : ComponentState, (feedChunks cs s).mediaRecorder = s.mediaRecorder := by
  induction cs with
  | nil => intro s; rfl
  | cons c cs ih =>
      intro s
      rw [feedChunks, ih]
      unfold recorderOnData
      split <;> rfl

/-- Chunk delivery does not touch the evidence collection. -/
lemma feedChunks_evidenceFiles (cs : List (List Nat)) :
    ∀ s : ComponentState, (feedChunks cs s).evidenceFiles = s.evidenceFiles := by
  induction cs with
  | nil => intro s; rfl
  | cons c cs ih =>
      intro s
      rw [feedChunks, ih]
      unfold recorderOnData
      split <;> rfl

/-- The concatenation of the buffer after delivering chunks `cs` is the old
concatenation followed by the concatenation of `cs` (empty chunks are dropped
by the callback but contribute nothing to the concatenation). -/
lemma feedChunks_flatten (cs : List (List Nat)) :
    ∀ s : ComponentState,
      (feedChunks cs s).audioChunks.flatten = s.audioChunks.flatten ++ cs.flatten := by
  induction cs with
  | nil => intro s; simp [feedChunks]
  | cons c cs ih =>
      intro s
      rw [feedChunks, ih]
      unfold recorderOnData
      split
      · simp
      · rename_i h
        have hc : c = [] := by
          cases c with
          | nil => rfl
          | cons x xs => simp at h
        simp [hc]

/-- C4: for a fresh recording session (recorder present, empty buffer) during
which chunks `cs` arrive in order, `stopRecording` appends exactly one new
evidence item whose payload is the ordered concatenation of the chunks,
leaves the chunk buffer empty and marks the session inactive. -/
theorem c4_stopRecording_concatenates (s : ComponentState) (cs : List (List Nat))
    (hrec : s.mediaRecorder = some ()) (hbuf : s.audioChunks = []) :
    (stopRecording (feedChunks cs s)).evidenceFiles
        = s.evidenceFiles
            ++ [{ name := "audio-evidence.webm", mimeType := "audio/webm",
                  payload := cs.flatten }]
      ∧ (stopRecording (feedChunks cs s)).audioChunks = []
      ∧ (stopRecording (feedChunks cs s)).isRecording = false := by
  have hm := feedChunks_mediaRecorder cs s
  rw [hrec] at hm
  have hflat := feedChunks_flatten cs s
  rw [hbuf] at hflat
  simp only [List.flatten_nil, List.nil_append] at hflat
  unfold stopRecording
  rw [hm]
  refine ⟨?_, rfl, rfl⟩
  rw [feedChunks_evidenceFiles cs s]
  simp [audioEvidenceFile, hflat]

/-- Closed instance of C4: two chunks on a fresh session. -/
theorem c4_witness :
    (stopRecording (feedChunks [[1], [2, 3]] (startRecording initialState))).evidenceFiles
        = [{ name := "audio-evidence.webm", mimeType := "audio/webm",
             payload := [1, 2, 3] }]
      ∧ (stopRecording (feedChunks [[1], [2, 3]] (startRecording initialState))).audioChunks = []
      ∧ (stopRecording (feedChunks [[1], [2, 3]] (startRecording initialState))).isRecording = false := by
  have h := c4_stopRecording_concatenates (startRecording initialState) [[1], [2, 3]] rfl rfl
  simpa using h

/-- C10: with no recorder ever created, `stopRecording` is a no-op on the
whole component state. -/
theorem c10_stopRecording_noop (s : ComponentState) (h : s.mediaRecorder = none) :
    stopRecording s = s := by
  unfold stopRecording
  rw [h]

/-- Closed instance of C10 at the initial state. -/
theorem c10_witness : stopRecording initialState = initialState :=
  c10_stopRecording_noop initialState rfl

/-- C2: with a valid form and no resolved location, the submission mutation
fails with the missing-location error and performs zero network calls. -/
theorem c2_missing_location (net : Network) (s : ComponentState)
    (data : CrimeReportFormData) (hval : validFormData data)
    (hloc : s.location = none) :
    submitCrimeReport net s data
      = { result := Except.error "Location is required", trace := [] } := by
  unfold submitCrimeReport
  rw [hloc]

/-- Closed instance of C2 at the initial state. -/
theorem c2_witness :
    validFormData dataEx
      ∧ submitCrimeReport netOk initialState dataEx
          = { result := Except.error "Location is required", trace := [] } :=
  ⟨by decide, c2_missing_location netOk initialState dataEx (by decide) rfl⟩

/-! Helper lemmas about the positional filter of `removeFile`. -/

/-- When the target index lies outside the positions of the list, the
positional filter keeps every element. -/
lemma filterNeIdx_out (index : Int) :
    ∀ (l : List File) (i₀ : Nat),
      (index < (i₀ : Int) ∨ (i₀ : Int) + l.length ≤ index) →
      filterNeIdx index i₀ l = l := by
  intro l
  induction l with
  | nil => intro i₀ h; rfl
  | cons f fs ih =>
      intro i₀ h
      simp only [List.length_cons] at h
      have hne : ¬((i₀ : Int) = index) := by push_cast at h ⊢; omega
      have h' : index < ((i₀ + 1 : Nat) : Int)
          ∨ ((i₀ + 1 : Nat) : Int) + fs.length ≤ index := by
        push_cast at h ⊢; omega
      unfold filterNeIdx
      rw [if_neg hne, ih (i₀ + 1) h']

/-- The positional filter yields a subsequence of its input. -/
lemma filterNeIdx_sublist (index : Int) :
    ∀ (l : List File) (i₀ : Nat), (filterNeIdx index i₀ l).Sublist l := by
  intro l
  induction l with
  | nil => intro i₀; exact List.Sublist.refl []
  | cons f fs ih =>
      intro i₀
      unfold filterNeIdx
      split
      · exact List.Sublist.cons f (ih (i₀ + 1))
      · exact List.Sublist.cons₂ f (ih (i₀ + 1))

/-- When the target index hits a position of the list, the positional filter
drops exactly one element. -/
lemma filterNeIdx_length_in (index : Int) :
    ∀ (l : List File) (i₀ : Nat),
      (i₀ : Int) ≤ index → index < (i₀ : Int) + l.length →
      (filterNeIdx index i₀ l).length + 1 = l.length := by
  intro l
  induction l with
  | nil => intro i₀ h1 h2; simp at h2; omega
  | cons f fs ih =>
      intro i₀ h1 h2
      simp only [List.length_cons] at h2 ⊢
      unfold filterNeIdx
      by_cases he : (i₀ : Int) = index
      · rw [if_pos he, filterNeIdx_out index fs (i₀ + 1) (Or.inl (by push_cast; omega))]
      · rw [if_neg he]
        simp only [List.length_cons]
        have := ih (i₀ + 1) (by push_cast at h1 ⊢; omega) (by push_cast at h2 ⊢; omega)
        omega

/-- In-range removal: the positional filter keeps the prefix before the hit
position and the suffix after it. -/
lemma filterNeIdx_take_drop (index : Int) :
    ∀ (l : List File) (i₀ : Nat),
      (i₀ : Int) ≤ index → index < (i₀ : Int) + l.length →
      filterNeIdx index i₀ l
        = l.take (index - i₀).toNat ++ l.drop ((index - i₀).toNat + 1) := by
  intro l
  induction l with
  | nil => intro i₀ h1 h2; simp at h2; omega
  | cons f fs ih =>
      intro i₀ h1 h2
      simp only [List.length_cons] at h2
      unfold filterNeIdx
      by_cases he : (i₀ : Int) = index
      · rw [if_pos he, filterNeIdx_out index fs (i₀ + 1) (Or.inl (by push_cast; omega))]
        have h0 : (index - (i₀ : Int)).toNat = 0 := by omega
        rw [h0]
        simp
      · rw [if_neg he,
          ih (i₀ + 1) (by push_cast at h1 ⊢; omega) (by push_cast at h2 ⊢; omega)]
        have hk : (index - (i₀ : Int)).toNat
            = (index - ((i₀ + 1 : Nat) : Int)).toNat + 1 := by push_cast; omega
        rw [hk, List.take_succ_cons, List.drop_succ_cons]
        rfl

/-- C9: `removeFile` leaves the collection unchanged for an out-of-range
index (negative, or at least the current length), and for an in-range index
removes exactly the item at that position, shifting the rest down. -/
theorem c9_removeFile (i : Int) (s : ComponentState) :
    ((i < 0 ∨ (s.evidenceFiles.length : Int) ≤ i) → removeFile i s = s)
      ∧ (0 ≤ i → i < (s.evidenceFiles.length : Int) →
          (removeFile i s).evidenceFiles
            = s.evidenceFiles.take i.toNat
                ++ s.evidenceFiles.drop (i.toNat + 1)) := by
  constructor
  · intro h
    unfold removeFile
    rw [filterNeIdx_out i s.evidenceFiles 0 (by push_cast; omega)]
  · intro h0 h1
    unfold removeFile
    have h := filterNeIdx_take_drop i s.evidenceFiles 0 (by push_cast; omega)
      (by push_cast; omega)
    simpa using h

/-- Closed instance of C9: an out-of-range and an in-range removal on a
two-element collection. -/
theorem c9_witness :
    removeFile 5 s2Ex = s2Ex ∧ (removeFile 0 s2Ex).evidenceFiles = [fEx2] := by
  constructor
  · exact (c9_removeFile 5 s2Ex).1 (Or.inr (by decide))
  · have h := (c9_removeFile 0 s2Ex).2 (by decide) (by decide)
    simpa using h

/-- Case analysis of one run of the submission mutation: missing location,
upload failure, upload success, or no evidence selected.  In each case the
run (or at least its trace) is given in closed form. -/
lemma submit_trace_spec (net : Network) (s : ComponentState)
    (data : CrimeReportFormData) :
    (s.location = none
        ∧ submitCrimeReport net s data
            = { result := Except.error "Location is required", trace := [] })
  ∨ (∃ loc e, s.location = some loc ∧ 0 < s.evidenceFiles.length
        ∧ net.upload s.evidenceFiles = Except.error e
        ∧ submitCrimeReport net s data
            = { result := Except.error e
                trace := [NetCall.uploadEvidence s.evidenceFiles] })
  ∨ (∃ loc urls, s.location = some loc ∧ 0 < s.evidenceFiles.length
        ∧ net.upload s.evidenceFiles = Except.ok urls
        ∧ (submitCrimeReport net s data).trace
            = [NetCall.uploadEvidence s.evidenceFiles,
               NetCall.createTicket (mkReportData data loc urls)])
  ∨ (∃ loc, s.location = some loc ∧ s.evidenceFiles = []
        ∧ (submitCrimeReport net s data).trace
            = [NetCall.createTicket (mkReportData data loc [])]) := by
  cases hloc : s.location with
  | none =>
      left
      exact ⟨rfl, by unfold submitCrimeReport; rw [hloc]⟩
  | some loc =>
      by_cases hev : 0 < s.evidenceFiles.length
      · cases hup : net.upload s.evidenceFiles with
        | error e =>
            right; left
            exact ⟨loc, e, rfl, hev, rfl,
              by simp [submitCrimeReport, hloc, hev, hup]⟩
        | ok urls =>
            right; right; left
            refine ⟨loc, urls, rfl, hev, rfl, ?_⟩
            simp only [submitCrimeReport, hloc, hev, hup, if_true]
            cases net.create (mkReportData data loc urls) <;> rfl
      · right; right; right
        have hnil : s.evidenceFiles = [] :=
          List.eq_nil_of_length_eq_zero (by omega)
        refine ⟨loc, rfl, hnil, ?_⟩
        simp only [submitCrimeReport, hloc, hev, if_false]
        cases net.create (mkReportData data loc []) <;> rfl

/-- C1: with a non-empty evidence collection, a report-creation call appears
in the trace only when the upload call succeeded and strictly preceded it;
and when the upload fails, the creation endpoint receives zero calls. -/
theorem c1_upload_before_create (net : Network) (s : ComponentState)
    (data : CrimeReportFormData) (hev : s.evidenceFiles ≠ []) :
    (∀ rd, NetCall.createTicket rd ∈ (submitCrimeReport net s data).trace →
        ∃ urls, net.upload s.evidenceFiles = Except.ok urls
          ∧ (submitCrimeReport net s data).trace
              = [NetCall.uploadEvidence s.evidenceFiles, NetCall.createTicket rd])
      ∧ (∀ e, net.upload s.evidenceFiles = Except.error e →
          ∀ rd, NetCall.createTicket rd ∉ (submitCrimeReport net s data).trace) := by
  rcases submit_trace_spec net s data with
    ⟨hloc, heq⟩ | ⟨loc, e, hloc, hlen, hup, heq⟩
    | ⟨loc, urls, hloc, hlen, hup, htr⟩ | ⟨loc, hloc, hnil, htr⟩
  · constructor
    · intro rd hmem; rw [heq] at hmem; simp at hmem
    · intro e _ rd hmem; rw [heq] at hmem; simp at hmem
  · constructor
    · intro rd hmem; rw [heq] at hmem; simp at hmem
    · intro e' _ rd hmem; rw [heq] at hmem; simp at hmem
  · constructor
    · intro rd hmem
      rw [htr] at hmem
      simp only [List.mem_cons, List.not_mem_nil, or_false] at hmem
      rcases hmem with hmem | hmem
      · exact absurd hmem (by simp)
      · have hrd : rd = mkReportData data loc urls := by
          exact NetCall.createTicket.inj hmem
        exact ⟨urls, hup, by rw [htr, hrd]⟩
    · intro e hupe
      rw [hup] at hupe
      exact Except.noConfusion hupe
  · exact absurd hnil hev

/-- Closed instance of C1: a failing upload yields a trace without any
creation call. -/
theorem c1_witness :
    sEx.evidenceFiles ≠ []
      ∧ NetCall.createTicket (mkReportData dataEx locEx ["u"])
          ∉ (submitCrimeReport netFail sEx dataEx).trace := by
  refine ⟨by decide, ?_⟩
  exact (c1_upload_before_create netFail sEx dataEx (by decide)).2
    "upload failed" rfl (mkReportData dataEx locEx ["u"])

/-- C3: when the upload succeeds, the creation call is made with a payload
whose evidence references are exactly the URL list returned by the upload,
in the same order. -/
theorem c3_payload_evidence_urls (net : Network) (s : ComponentState)
    (data : CrimeReportFormData) (loc : Location) (urls : List String)
    (hloc : s.location = some loc) (hev : s.evidenceFiles ≠ [])
    (hup : net.upload s.evidenceFiles = Except.ok urls) :
    ∃ rd, (submitCrimeReport net s data).trace
        = [NetCall.uploadEvidence s.evidenceFiles, NetCall.createTicket rd]
      ∧ rd.crimeDetails.evidenceUrls = urls := by
  rcases submit_trace_spec net s data with
    ⟨hloc', _⟩ | ⟨loc', e, hloc', hlen, hup', heq⟩
    | ⟨loc', urls', hloc', hlen, hup', htr⟩ | ⟨loc', hloc', hnil, htr⟩
  · rw [hloc] at hloc'; exact Option.noConfusion hloc'
  · rw [hup] at hup'; exact Except.noConfusion hup'
  · rw [hloc] at hloc'
    rw [hup] at hup'
    obtain rfl : loc = loc' := Option.some.inj hloc'
    obtain rfl : urls = urls' := Except.ok.inj hup'
    exact ⟨mkReportData data loc urls, htr, rfl⟩
  · exact absurd hnil hev

/-- Closed instance of C3 on the all-success backend. -/
theorem c3_witness :
    ∃ rd, (submitCrimeReport netOk sEx dataEx).trace
        = [NetCall.uploadEvidence sEx.evidenceFiles, NetCall.createTicket rd]
      ∧ rd.crimeDetails.evidenceUrls = ["https://cdn.example/evidence-1"] :=
  c3_payload_evidence_urls netOk sEx dataEx locEx ["https://cdn.example/evidence-1"]
    rfl (by decide) rfl

/-- C8: every report payload handed to the creation endpoint has type
LIVE_CRIME, subject built from the selected category, fixed priority HIGH,
and crime details carrying the category, the in-progress flag, the resolved
location, and the uploaded evidence URLs. -/
theorem c8_payload_fields (net : Network) (s : ComponentState)
    (data : CrimeReportFormData) :
    ∀ rd, NetCall.createTicket rd ∈ (submitCrimeReport net s data).trace →
      rd.type = "LIVE_CRIME"
      ∧ rd.subject = "Live Crime Report: " ++ crimeTypeToString data.crimeType
      ∧ rd.priority = "HIGH"
      ∧ rd.crimeDetails.crimeType = data.crimeType
      ∧ rd.crimeDetails.inProgress = data.inProgress
      ∧ s.location = some rd.crimeDetails.location
      ∧ (s.evidenceFiles = [] → rd.crimeDetails.evidenceUrls = [])
      ∧ (s.evidenceFiles ≠ [] →
          net.upload s.evidenceFiles = Except.ok rd.crimeDetails.evidenceUrls) := by
  intro rd hmem
  rcases submit_trace_spec net s data with
    ⟨hloc, heq⟩ | ⟨loc, e, hloc, hlen, hup, heq⟩
    | ⟨loc, urls, hloc, hlen, hup, htr⟩ | ⟨loc, hloc, hnil, htr⟩
  · rw [heq] at hmem; simp at hmem
  · rw [heq] at hmem; simp at hmem
  · rw [htr] at hmem
    simp only [List.mem_cons, List.not_mem_nil, or_false] at hmem
    rcases hmem with hmem | hmem
    · exact absurd hmem (by simp)
    · have hrd : rd = mkReportData data loc urls := NetCall.createTicket.inj hmem
      subst hrd
      refine ⟨rfl, rfl, rfl, rfl, rfl, hloc, ?_, fun _ => hup⟩
      intro h
      rw [h] at hlen
      simp at hlen
  · rw [htr] at hmem
    simp only [List.mem_cons, List.not_mem_nil, or_false] at hmem
    have hrd : rd = mkReportData data loc [] := NetCall.createTicket.inj hmem
    subst hrd
    exact ⟨rfl, rfl, rfl, rfl, rfl, hloc, fun _ => rfl, fun hne => absurd hnil hne⟩

/-- Closed instance of C8 on the all-success backend. -/
theorem c8_witness :
    (mkReportData dataEx locEx ["https://cdn.example/evidence-1"]).type = "LIVE_CRIME"
      ∧ (mkReportData dataEx locEx ["https://cdn.example/evidence-1"]).subject
          = "Live Crime Report: FRAUD"
      ∧ (mkReportData dataEx locEx ["https://cdn.example/evidence-1"]).priority = "HIGH"
      ∧ sEx.location
          = some (mkReportData dataEx locEx
              ["https://cdn.example/evidence-1"]).crimeDetails.location := by
  have h := c8_payload_fields netOk sEx dataEx
    (mkReportData dataEx locEx ["https://cdn.example/evidence-1"]) (by decide)
  exact ⟨h.1, h.2.1, h.2.2.1, h.2.2.2.2.2.1⟩

/-- C7: when the evidence upload fails, the full submission attempt leaves
the component state (in particular the selected evidence, in order) exactly
as it was, makes no creation call, and does not signal success. -/
theorem c7_upload_failure_preserves (net : Network) (s : ComponentState)
    (data : CrimeReportFormData) (e : String) (hev : s.evidenceFiles ≠ [])
    (hup : net.upload s.evidenceFiles = Except.error e) :
    (submitFlow net s data).1.state = s
      ∧ (∀ rd, NetCall.createTicket rd ∉ (submitFlow net s data).2)
      ∧ (submitFlow net s data).1.onSubmitCalled = false := by
  rcases submit_trace_spec net s data with
    ⟨hloc, heq⟩ | ⟨loc, e', hloc, hlen, hup', heq⟩
    | ⟨loc, urls, hloc, hlen, hup', htr⟩ | ⟨loc, hloc, hnil, htr⟩
  · refine ⟨?_, ?_, ?_⟩ <;> simp [submitFlow, heq, handleMutationResult]
  · refine ⟨?_, ?_, ?_⟩ <;> simp [submitFlow, heq, handleMutationResult]
  · rw [hup] at hup'; exact Except.noConfusion hup'
  · exact absurd hnil hev

/-- Closed instance of C7 on the failing-upload backend. -/
theorem c7_witness :
    (submitFlow netFail sEx dataEx).1.state = sEx
      ∧ NetCall.createTicket (mkReportData dataEx locEx [])
          ∉ (submitFlow netFail sEx dataEx).2
      ∧ (submitFlow netFail sEx dataEx).1.onSubmitCalled = false := by
  have h := c7_upload_failure_preserves netFail sEx dataEx "upload failed"
    (by decide) rfl
  exact ⟨h.1, h.2.1 (mkReportData dataEx locEx []), h.2.2⟩

/-- C5 as stated is false: on a fully successful submission the component
state is untouched — the evidence collection (and every other transient
field) is not cleared by the success handler. -/
theorem c5_counterexample :
    (submitCrimeReport netOk sEx dataEx).result = Except.ok "TICKET1"
      ∧ (submitFlow netOk sEx dataEx).1.state.evidenceFiles ≠ [] := by
  constructor
  · rfl
  · decide

/-- C5 amended: on every successful report submission the component signals
the caller through the onSubmit callback, but leaves the component state
(form-adjacent evidence collection and recording buffers included)
unchanged. -/
theorem c5_success_signals (net : Network) (s : ComponentState)
    (data : CrimeReportFormData) (resp : String)
    (h : (submitCrimeReport net s data).result = Except.ok resp) :
    (submitFlow net s data).1.onSubmitCalled = true
      ∧ (submitFlow net s data).1.state = s := by
  simp only [submitFlow]
  rw [h]
  simp [handleMutationResult]

/-- Closed instance of the amended C5 on the all-success backend. -/
theorem c5_witness :
    (submitFlow netOk sEx dataEx).1.onSubmitCalled = true
      ∧ (submitFlow netOk sEx dataEx).1.state = sEx :=
  c5_success_signals netOk sEx dataEx "TICKET1" (by decide)

/-- Joint invariant for C6, generalized over the starting state: the final
evidence collection is an order-preserving subsequence of the starting
collection followed by all additions, and its length is the starting length
plus the additions minus the in-range removals. -/
lemma applyOps_spec : ∀ (ops : List EvidenceOp) (s : ComponentState),
    ((applyOps ops s).evidenceFiles.Sublist (s.evidenceFiles ++ addedFiles ops))
      ∧ (applyOps ops s).evidenceFiles.length
          + inRangeRemovals ops s.evidenceFiles.length
        = s.evidenceFiles.length + (addedFiles ops).length := by
  intro ops
  induction ops with
  | nil =>
      intro s
      exact ⟨by simp [applyOps, addedFiles], by simp [applyOps, addedFiles, inRangeRemovals]⟩
  | cons op rest ih =>
      intro s
      cases op with
      | add fs =>
          have h := ih (handleFileChange (some fs) s)
          constructor
          · have h1 := h.1
            simpa [applyOps, addedFiles, handleFileChange, List.append_assoc] using h1
          · have h2 := h.2
            simp only [handleFileChange, List.length_append] at h2
            simp only [applyOps, addedFiles, inRangeRemovals, handleFileChange,
              List.length_append]
            omega
      | remove i =>
          by_cases hin : 0 ≤ i ∧ i < (s.evidenceFiles.length : Int)
          · have hlen := filterNeIdx_length_in i s.evidenceFiles 0
              (by push_cast; omega) (by push_cast; omega)
            have h := ih (removeFile i s)
            constructor
            · have h1 := h.1.trans
                (List.Sublist.append (filterNeIdx_sublist i s.evidenceFiles 0)
                  (List.Sublist.refl (addedFiles rest)))
              simpa [applyOps, addedFiles, removeFile] using h1
            · have h2 := h.2
              simp only [removeFile] at h2
              have harg : (filterNeIdx i 0 s.evidenceFiles).length
                  = s.evidenceFiles.length - 1 := by omega
              rw [harg] at h2
              simp only [applyOps, addedFiles, inRangeRemovals, removeFile,
                if_pos hin]
              omega
          · have hnoop : removeFile i s = s := by
              unfold removeFile
              rw [filterNeIdx_out i s.evidenceFiles 0 (by push_cast; omega)]
            have h := ih s
            constructor
            · simpa [applyOps, addedFiles, hnoop] using h.1
            · have h2 := h.2
              simp only [applyOps, addedFiles, inRangeRemovals, hnoop,
                if_neg hin]
              omega

/-- Spec-side reference removal, following the spec's words for
`removeEvidence(index)`: remove exactly the item at that position (the
prefix before it and the suffix after it survive, indices shifting), and do
nothing when the index is out of range. -/
def specRemoveEvidence (i : Int) (l : List File) : List File :=
  if 0 ≤ i ∧ i < (l.length : Int) then l.take i.toNat ++ l.drop (i.toNat + 1)
  else l

/-- Spec-side reference fold for a sequence of evidence actions: additions
append in order, removals excise exactly the addressed position.  Its result
is the sequence of added items with the removed positions excluded. -/
def specEvidenceCollection : List EvidenceOp → List File → List File
  | [], l => l
  | EvidenceOp.add fs :: rest, l => specEvidenceCollection rest (l ++ fs)
  | EvidenceOp.remove i :: rest, l =>
      specEvidenceCollection rest (specRemoveEvidence i l)

/-- The positional filter of the code coincides with the spec's reference
removal on every index, in and out of range. -/
lemma filterNeIdx_eq_specRemove (i : Int) (l : List File) :
    filterNeIdx i 0 l = specRemoveEvidence i l := by
  unfold specRemoveEvidence
  split
  · rename_i h
    have ht := filterNeIdx_take_drop i l 0 (by push_cast; omega)
      (by push_cast; omega)
    simpa using ht
  · rename_i h
    exact filterNeIdx_out i l 0 (by push_cast at h ⊢; omega)

/-- The code's evidence collection after any action sequence equals the
spec-side reference fold, from every starting state. -/
lemma applyOps_eq_spec : ∀ (ops : List EvidenceOp) (s : ComponentState),
    (applyOps ops s).evidenceFiles
      = specEvidenceCollection ops s.evidenceFiles := by
  intro ops
  induction ops with
  | nil => intro s; rfl
  | cons op rest ih =>
      intro s
      cases op with
      | add fs =>
          have h := ih (handleFileChange (some fs) s)
          simpa [applyOps, specEvidenceCollection, handleFileChange] using h
      | remove i =>
          have h := ih (removeFile i s)
          simp only [applyOps, specEvidenceCollection]
          rw [h]
          simp only [removeFile]
          rw [filterNeIdx_eq_specRemove]

/-- C6: starting from the empty collection, any interleaving of additions
and removals ends with exactly the reference result — the added items, in
addition order, with the removed positions excluded — hence with an
order-preserving subsequence of all added items whose length is the number
of additions minus the in-range removals. -/
theorem c6_evidence_collection (ops : List EvidenceOp) :
    (applyOps ops initialState).evidenceFiles = specEvidenceCollection ops []
      ∧ ((applyOps ops initialState).evidenceFiles.Sublist (addedFiles ops))
      ∧ (applyOps ops initialState).evidenceFiles.length
          = (addedFiles ops).length - inRangeRemovals ops 0 := by
  obtain ⟨h1, h2⟩ := applyOps_spec ops initialState
  have hs := applyOps_eq_spec ops initialState
  have he : initialState.evidenceFiles = ([] : List File) := rfl
  rw [he] at h1 h2 hs
  simp only [List.nil_append, List.length_nil, Nat.zero_add] at h1 h2
  exact ⟨hs, h1, by omega⟩

end LiveCrimeReport
